import Mathlib

/-!
Shallow embedding of the push-notification core of the nutritionbackend
repository:

* `WebPushService` (subscription registry + per-endpoint dispatch), from
  the unnamed web-push service module;
* `NotificationScheduler` (quiet hours gate, per-user send, audit log,
  custom and bulk sends), from `utils/notificationScheduler.js`;
* the calorie-achievement producer, from
  `controllers/NotificationController.js`.

Mutable state (the in-memory `Map`, the JSON snapshot on disk, the audit
log file) is passed explicitly.  Effects whose success is decided by the
environment (disk writes, the push protocol client) are parameters:
`writeOk`/`logOk : Bool` for file writes, `deliver : Subscription →
SendOutcome` for the push client.  The `attempts` field of `SendResults`
is ghost instrumentation recording the endpoints passed to the push
client, one entry per `webpush.sendNotification` call in the source loop.
-/

namespace NutritionBackend

/-- A push subscription: `{endpoint, keys: {p256dh, auth}}`.  The endpoint
is the identity used by subscribe/unsubscribe; the keys ride along. -/
structure Subscription where
  endpoint : String
  p256dh : String
  auth : String
deriving Repr, DecidableEq

/-- The in-memory registry: the JS `Map` from `userId` to the per-user
subscription array, in insertion order, keys unique. -/
abbrev Registry := List (String × List Subscription)

/-- JS `Map.prototype.get`, returning the value of the first (only) entry for
the key. -/
def mapGet (m : Registry) (k : String) : Option (List Subscription) :=
  (m.find? (fun p => p.1 == k)).map (fun p => p.2)

/-- JS `Map.prototype.has`. -/
def mapHas (m : Registry) (k : String) : Bool :=
  (mapGet m k).isSome

/-- JS `Map.prototype.set`: replace in place when the key is present,
append otherwise. -/
def mapSet (m : Registry) (k : String) (v : List Subscription) : Registry :=
  if mapHas m k then m.map (fun p => if p.1 == k then (k, v) else p)
  else m ++ [(k, v)]

/-- JS `Map.prototype.delete`, keeping the order of the other entries. -/
def mapDelete (m : Registry) (k : String) : Registry :=
  m.filter (fun p => p.1 != k)

/-- JSON values, as far as the subscription snapshot needs them (the
persisted shape is an object of arrays of subscription objects, every
leaf a string). -/
inductive Json where
  | str (s : String)
  | arr (items : List Json)
  | obj (fields : List (String × Json))
deriving Repr

/-- Field access on a JSON object. -/
def jfield (fields : List (String × Json)) (k : String) : Option Json :=
  (fields.find? (fun p => p.1 == k)).map (fun p => p.2)

/-- Encoding `JSON.stringify` of one subscription, as a JSON tree. -/
def encodeSub (s : Subscription) : Json :=
  .obj [("endpoint", .str s.endpoint),
        ("keys", .obj [("p256dh", .str s.p256dh), ("auth", .str s.auth)])]

/-- Decoding `JSON.parse` of one subscription object. -/
def decodeSub (j : Json) : Option Subscription :=
  match j with
  | .obj fields =>
    match jfield fields "endpoint", jfield fields "keys" with
    | some (.str ep), some (.obj kf) =>
      match jfield kf "p256dh", jfield kf "auth" with
      | some (.str p), some (.str a) => some ⟨ep, p, a⟩
      | _, _ => none
    | _, _ => none
  | _ => none

/-- Decode a JSON array of subscriptions. -/
def decodeSubList (j : Json) : Option (List Subscription) :=
  match j with
  | .arr items => items.mapM decodeSub
  | _ => none

/-- Encoding `JSON.stringify(Object.fromEntries(this.subscriptions))`: the snapshot
written by `saveSubscriptions`. -/
def encodeRegistry (m : Registry) : Json :=
  .obj (m.map (fun p => (p.1, .arr (p.2.map encodeSub))))

/-- Decoding `new Map(Object.entries(JSON.parse(data)))`: the registry read back by
`loadSubscriptions`. -/
def decodeRegistry (j : Json) : Option Registry :=
  match j with
  | .obj fields =>
    fields.mapM (fun p => (decodeSubList p.2).map (fun subs => (p.1, subs)))
  | _ => none

/-- The state owned by `WebPushService`: the in-memory registry and the
snapshot file `webpush-subscriptions.json` (`none` = absent/unreadable). -/
structure WebPushState where
  subscriptions : Registry
  disk : Option Json
deriving Repr

/-- Source `saveSubscriptions`: serialize the registry to disk.  A write failure
(`writeOk = false`) is caught, logged to the console and swallowed: the
state visible to callers is unchanged. -/
def saveSubscriptions (writeOk : Bool) (st : WebPushState) : WebPushState :=
  if writeOk then { st with disk := some (encodeRegistry st.subscriptions) }
  else st

/-- Source `loadSubscriptions`: parse the snapshot; on a missing or unparsable
file the catch block starts from a fresh empty `Map`. -/
def loadSubscriptions (disk : Option Json) : Registry :=
  match disk with
  | some j => (decodeRegistry j).getD []
  | none => []

/-- Source `getSubscriptions(userId)`: `this.subscriptions.get(userId) || []`. -/
def getSubscriptions (st : WebPushState) (userId : String) : List Subscription :=
  (mapGet st.subscriptions userId).getD []

/-- Source `subscribeUser(userId, subscription)`: ensure an entry, no-op returning
`false` when the endpoint already exists, otherwise push and persist. -/
def subscribeUser (writeOk : Bool) (st : WebPushState) (userId : String)
    (sub : Subscription) : Bool × WebPushState :=
  let st1 :=
    if mapHas st.subscriptions userId then st
    else { st with subscriptions := mapSet st.subscriptions userId [] }
  let existingSubs := (mapGet st1.subscriptions userId).getD []
  let alreadyThere := existingSubs.any (fun s => s.endpoint == sub.endpoint)
  if !alreadyThere then
    let st2 := { st1 with
      subscriptions := mapSet st1.subscriptions userId (existingSubs ++ [sub]) }
    (true, saveSubscriptions writeOk st2)
  else
    (false, st1)

/-- Source `unsubscribeUser(userId, endpoint)`: filter the endpoint out of
the array of that user (the filtered array is stored before the length check), then
report whether anything was removed, persisting only in that case. -/
def unsubscribeUser (writeOk : Bool) (st : WebPushState) (userId : String)
    (endpoint : String) : Bool × WebPushState :=
  if mapHas st.subscriptions userId then
    let userSubs := (mapGet st.subscriptions userId).getD []
    let filtered := userSubs.filter (fun s => s.endpoint != endpoint)
    let st1 := { st with subscriptions := mapSet st.subscriptions userId filtered }
    if filtered.length < userSubs.length then
      (true, saveSubscriptions writeOk st1)
    else
      (false, st1)
  else
    (false, st)

/-- Source `unsubscribeAll(userId)`: delete the whole entry when present. -/
def unsubscribeAll (writeOk : Bool) (st : WebPushState) (userId : String) :
    Bool × WebPushState :=
  if mapHas st.subscriptions userId then
    (true, saveSubscriptions writeOk
      { st with subscriptions := mapDelete st.subscriptions userId })
  else
    (false, st)

/-- Outcome of one `webpush.sendNotification` call, decided by the push
protocol client: success, or a rejection carrying `error.message` and
`error.statusCode` (absent on non-HTTP failures). -/
inductive SendOutcome where
  | ok
  | fail (message : String) (statusCode : Option Nat)
deriving Repr, DecidableEq

/-- The `error.statusCode === 410` classification that triggers pruning. -/
def SendOutcome.isGone : SendOutcome → Bool
  | .ok => false
  | .fail _ code => code == some 410

/-- The result object built by `sendNotification`.  `attempts` is ghost
instrumentation: the endpoints passed to the push client, in call order;
it is not part of the JS return value. -/
structure SendResults where
  sent : Nat
  failed : Nat
  errors : List (String × String)
  attempts : List String
deriving Repr, DecidableEq

/-- The `for (const subscription of subscriptions)` loop body of
`sendNotification`: success bumps `sent`; failure bumps `failed`, records
`{endpoint, error}`, and a 410 status prunes that endpoint via
`unsubscribeUser` on the live registry.  The iteration list is the
snapshot taken before the loop and is not affected by pruning. -/
def sendLoop (writeOk : Bool) (userId : String)
    (deliver : Subscription → SendOutcome) :
    List Subscription → SendResults → WebPushState → SendResults × WebPushState
  | [], acc, st => (acc, st)
  | sub :: rest, acc, st =>
    match deliver sub with
    | .ok =>
      sendLoop writeOk userId deliver rest
        { acc with sent := acc.sent + 1,
                   attempts := acc.attempts ++ [sub.endpoint] } st
    | .fail msg code =>
      let acc1 := { acc with failed := acc.failed + 1,
                             errors := acc.errors ++ [(sub.endpoint, msg)],
                             attempts := acc.attempts ++ [sub.endpoint] }
      let st1 :=
        if code == some 410 then (unsubscribeUser writeOk st userId sub.endpoint).2
        else st
      sendLoop writeOk userId deliver rest acc1 st1

/-- Source `sendNotification(userId, payload)`: `{sent: 0, failed: 0}` when
the user has no registry entry, otherwise the loop over the snapshot of
the subscription array of that user. -/
def sendNotification (writeOk : Bool) (st : WebPushState) (userId : String)
    (deliver : Subscription → SendOutcome) : SendResults × WebPushState :=
  if mapHas st.subscriptions userId then
    sendLoop writeOk userId deliver (getSubscriptions st userId) ⟨0, 0, [], []⟩ st
  else
    (⟨0, 0, [], []⟩, st)

/-- JS `String.prototype.split(sep)` on the character list of the string:
always at least one (possibly empty) group. -/
def splitCh (c : Char) : List Char → List (List Char)
  | [] => [[]]
  | x :: xs =>
    let r := splitCh c xs
    if x == c then [] :: r
    else
      match r with
      | [] => [[x]]
      | g :: gs => (x :: g) :: gs

/-- JS `Number(str)` restricted to the canonical nonnegative integer
numerals that time-of-day components use; every other string maps to
`none`, standing for `NaN`. -/
def jsNumber (l : List Char) : Option Nat :=
  if l.isEmpty then some 0
  else if l.all Char.isDigit then
    some (l.foldl (fun n c => n * 10 + (c.toNat - 48)) 0)
  else none

/-- JS `<=` between numbers that may be `NaN` (`none`): any comparison
with `NaN` is false. -/
def jsLe : Option Nat → Option Nat → Bool
  | some a, some b => a ≤ b
  | _, _ => false

/-- JS `>=` with the same `NaN` semantics. -/
def jsGe : Option Nat → Option Nat → Bool
  | some a, some b => a ≥ b
  | _, _ => false

/-- Source `timeToMinutes(timeStr)`: split on the colon, `map(Number)`, then
`hours * 60 + minutes`; `none` stands for a `NaN` result (missing second
component or non-numeric part). -/
def timeToMinutes (timeStr : String) : Option Nat :=
  let parts := (splitCh ':' timeStr.toList).map jsNumber
  match parts.get? 0, parts.get? 1 with
  | some (some hours), some (some minutes) => some (hours * 60 + minutes)
  | _, _ => none

/-- The per-user quiet hours window; each bound is `{start, end}` as an
`"HH:MM"` string, `none` when the property is absent.  The `end` field of
the source is called `endt` because `end` is a Lean keyword. -/
structure QuietHours where
  start : Option String
  endt : Option String
deriving Repr, DecidableEq

/-- Source `isInQuietHours(quietHours)` over the current time-of-day in minutes.
The falsy guard `!quietHours || !quietHours.start || !quietHours.end`
rejects a missing window, missing bounds and empty-string bounds.  The
two comparisons keep JS `NaN` semantics via `jsLe`/`jsGe`. -/
def isInQuietHours (quietHours : Option QuietHours) (currentTime : Nat) : Bool :=
  match quietHours with
  | none => false
  | some qh =>
    match qh.start, qh.endt with
    | some s, some e =>
      if s == "" || e == "" then false
      else
        let startTime := timeToMinutes s
        let endTime := timeToMinutes e
        if jsLe startTime endTime then
          jsLe startTime (some currentTime) && jsLe (some currentTime) endTime
        else
          jsGe (some currentTime) startTime || jsLe (some currentTime) endTime
    | _, _ => false

/-- The slice of `users.json` records the scheduler reads:
`notificationPreferences` with its optional `quietHours`. -/
structure NotificationPreferences where
  quietHours : Option QuietHours
deriving Repr, DecidableEq

/-- A user record, as far as dispatch needs it. -/
structure User where
  id : String
  notificationPreferences : Option NotificationPreferences
deriving Repr, DecidableEq

/-- One entry of `notification_logs.json` as appended by
`logNotification` (payload kept abstract; `deliveryResult` is the
`sendNotification` result object). -/
structure LogRecord where
  userId : String
  payload : String
  deliveryResult : SendResults
deriving Repr, DecidableEq

/-- The state `NotificationScheduler` reads and writes: the web-push
service state, the `users.json` contents, and the audit log file. -/
structure SchedState where
  push : WebPushState
  users : List User
  logs : List LogRecord
deriving Repr

/-- The quiet-hours test of `sendNotificationToUser` (lines 304-311):
`db.findOne` on `users.json` is a first-match scan by id, then
`user && user.notificationPreferences`, then
`quietHours && isInQuietHours(quietHours)`. -/
def quietGateActive (users : List User) (userId : String) (currentTime : Nat) : Bool :=
  match users.find? (fun u => u.id == userId) with
  | some u =>
    match u.notificationPreferences with
    | some prefs => prefs.quietHours.isSome && isInQuietHours prefs.quietHours currentTime
    | none => false
  | none => false

/-- Source `logNotification(userId, notification)`: append one record to
`notification_logs.json`; a read or write failure (`logOk = false`) is
caught and swallowed, leaving the file as it was. -/
def logNotification (logOk : Bool) (logs : List LogRecord) (userId payload : String)
    (result : SendResults) : List LogRecord :=
  if logOk then logs ++ [⟨userId, payload, result⟩] else logs

/-- Source `sendNotificationToUser(userId, payload)`: return early when the
quiet-hours gate is active (only a console message — nothing is written),
otherwise send via the web-push service and append one audit record.
The second component is the ghost attempt trace of the send (empty when
the gate is active, because the push client is never called).  The JS
function returns `undefined`; the whole body is wrapped in try/catch, and
every effect it performs is itself total (`db.readFile`, `logNotification`
and `saveSubscriptions` swallow their errors, the push client rejection is
caught per endpoint), so the function never throws. -/
def sendNotificationToUser (writeOk logOk : Bool) (currentTime : Nat)
    (deliver : Subscription → SendOutcome) (st : SchedState)
    (userId payload : String) : SchedState × List String :=
  if quietGateActive st.users userId currentTime then
    (st, [])
  else
    let (result, push1) := sendNotification writeOk st.push userId deliver
    let logs1 := logNotification logOk st.logs userId payload result
    ({ st with push := push1, logs := logs1 }, result.attempts)

/-- Source `sendNotificationToUser` as the try/catch of a caller sees it: an
`Except` that is always `ok` because the callee catches internally. -/
def sendNotificationToUserE (writeOk logOk : Bool) (currentTime : Nat)
    (deliver : Subscription → SendOutcome) (st : SchedState)
    (userId payload : String) : Except String (SchedState × List String) :=
  .ok (sendNotificationToUser writeOk logOk currentTime deliver st userId payload)

/-- The `{success, message}` object returned by `sendCustomNotification`
(`message` holds `error.message` in the failure branch). -/
structure CustomResult where
  success : Bool
  message : String
deriving Repr, DecidableEq

/-- Source `sendCustomNotification(userId, notificationData)`: try the per-user
send and report success with the fixed message; the
catch branch builds `{success: false, error}` but is reachable only if
the awaited call throws. -/
def sendCustomNotification (writeOk logOk : Bool) (currentTime : Nat)
    (deliver : Subscription → SendOutcome) (st : SchedState)
    (userId payload : String) : CustomResult × SchedState :=
  match sendNotificationToUserE writeOk logOk currentTime deliver st userId payload with
  | .ok (st1, _) => (⟨true, "Notification sent"⟩, st1)
  | .error msg => (⟨false, msg⟩, st)

/-- The `{total, sent, failed, errors}` aggregate of
`sendBulkNotification`. -/
structure BulkResults where
  total : Nat
  sent : Nat
  failed : Nat
  errors : List (String × String)
deriving Repr, DecidableEq

/-- The `for (const userId of userIds)` loop of `sendBulkNotification`:
the dispatch of each user runs inside its own try/catch, so a failure only
bumps `failed`, records `{userId, error}` and moves on. -/
def bulkLoop {σ : Type} (dispatch : String → σ → Except String σ) :
    List String → BulkResults → σ → BulkResults × σ
  | [], acc, st => (acc, st)
  | userId :: rest, acc, st =>
    match dispatch userId st with
    | .ok st1 => bulkLoop dispatch rest { acc with sent := acc.sent + 1 } st1
    | .error msg =>
      bulkLoop dispatch rest
        { acc with failed := acc.failed + 1,
                   errors := acc.errors ++ [(userId, msg)] } st

/-- Source `sendBulkNotification(userIds, notificationData)`, parametric in the
dispatch call (`await this.sendNotificationToUser(...)` in the source) so
that the failure isolation of the loop is stated for any dispatch
behaviour; the repository instance is `sendNotificationToUserE`, which
never throws. -/
def sendBulkNotification {σ : Type} (dispatch : String → σ → Except String σ)
    (userIds : List String) (st : σ) : BulkResults × σ :=
  bulkLoop dispatch userIds ⟨userIds.length, 0, 0, []⟩ st

/-- The concrete `sendBulkNotification` of the repository: the loop instantiated with
the actual per-user dispatch. -/
def sendBulkNotificationSched (writeOk logOk : Bool) (currentTime : Nat)
    (deliver : Subscription → SendOutcome) (payload : String)
    (userIds : List String) (st : SchedState) : BulkResults × SchedState :=
  sendBulkNotification
    (fun userId s =>
      (sendNotificationToUserE writeOk logOk currentTime deliver s userId payload).map
        (fun p => p.1))
    userIds st

/-- JS `Math.round` on an exact rational: round half toward positive
infinity. -/
def jsRound (x : ℚ) : ℤ :=
  ⌊x + 1 / 2⌋

/-- The `percentage || (caloriesConsumed / calorieGoal * 100)` expression
of `sendCalorieAchievement`: a missing or zero (falsy) `percentage` falls
back to the computed ratio. -/
def effectivePercentage (caloriesConsumed calorieGoal : ℚ) (percentage : Option ℚ) : ℚ :=
  match percentage with
  | some p => if p = 0 then caloriesConsumed / calorieGoal * 100 else p
  | none => caloriesConsumed / calorieGoal * 100

/-- Source `sendCalorieAchievement` (controller): after the required-field guard
(falsy `userId`, `caloriesConsumed` or `calorieGoal` is a 400 error),
round the percentage and pick the tier title by the if/else
chain of the source.  The result is the chosen title and the rounded percentage that is
embedded in the notification body and data. -/
def sendCalorieAchievement (userId : String) (caloriesConsumed calorieGoal : ℚ)
    (percentage : Option ℚ) : Except String (String × ℤ) :=
  if userId = "" ∨ caloriesConsumed = 0 ∨ calorieGoal = 0 then
    .error "userId, caloriesConsumed, and calorieGoal are required"
  else
    let roundedPercentage := jsRound (effectivePercentage caloriesConsumed calorieGoal percentage)
    let title :=
      if roundedPercentage ≥ 100 then "Goal Achieved! 🎯"
      else if roundedPercentage ≥ 75 then "Almost There! ⚡"
      else if roundedPercentage ≥ 50 then "Halfway There! 📊"
      else "Calorie Update 📈"
    .ok (title, roundedPercentage)

section MapLemmas

lemma save_subscriptions_eq (writeOk : Bool) (st : WebPushState) :
    (saveSubscriptions writeOk st).subscriptions = st.subscriptions := by
  unfold saveSubscriptions
  split <;> rfl

lemma mapGet_of_has_false {m : Registry} {k : String} (h : mapHas m k = false) :
    mapGet m k = none := by
  unfold mapHas at h
  exact Option.not_isSome_iff_eq_none.mp (by simp [h])

lemma find?_setMap (m : Registry) (k : String) (v : List Subscription)
    (h : mapHas m k = true) :
    (m.map (fun p => if p.1 == k then (k, v) else p)).find? (fun p => p.1 == k) =
      some (k, v) := by
  induction m with
  | nil => simp [mapHas, mapGet] at h
  | cons p rest ih =>
    rw [List.map_cons]
    by_cases hp : p.1 = k
    · have h1 : (if (p.1 == k) = true then (k, v) else p) = (k, v) := by
        simp [hp]
      rw [h1, List.find?_cons_of_pos _ (by simp)]
    · have hp' : (p.1 == k) = false := beq_eq_false_iff_ne.mpr hp
      have h1 : (if (p.1 == k) = true then (k, v) else p) = p := by
        simp [hp']
      have hrest : mapHas rest k = true := by
        unfold mapHas mapGet at h ⊢
        rwa [List.find?_cons_of_neg _ (by simp [hp'])] at h
      rw [h1, List.find?_cons_of_neg _ (by simp [hp']), ih hrest]

lemma find?_setMap_ne (m : Registry) (k k' : String) (v : List Subscription)
    (h : k' ≠ k) :
    (m.map (fun p => if p.1 == k then (k, v) else p)).find? (fun p => p.1 == k') =
      m.find? (fun p => p.1 == k') := by
  induction m with
  | nil => rfl
  | cons p rest ih =>
    rw [List.map_cons]
    by_cases hp : p.1 = k
    · have h1 : (if (p.1 == k) = true then (k, v) else p) = (k, v) := by
        simp [hp]
      have hpk : (p.1 == k') = false :=
        beq_eq_false_iff_ne.mpr (hp ▸ Ne.symm h)
      rw [h1, List.find?_cons_of_neg _ (by simp [Ne.symm h]),
        List.find?_cons_of_neg _ (by simp [hpk]), ih]
    · have hp' : (p.1 == k) = false := beq_eq_false_iff_ne.mpr hp
      have h1 : (if (p.1 == k) = true then (k, v) else p) = p := by
        simp [hp']
      rw [h1]
      by_cases hq : p.1 = k'
      · rw [List.find?_cons_of_pos _ (by simp [hq]),
          List.find?_cons_of_pos _ (by simp [hq])]
      · have hq' : (p.1 == k') = false := beq_eq_false_iff_ne.mpr hq
        rw [List.find?_cons_of_neg _ (by simp [hq']),
          List.find?_cons_of_neg _ (by simp [hq']), ih]

lemma mapGet_mapSet_self (m : Registry) (k : String) (v : List Subscription) :
    mapGet (mapSet m k v) k = some v := by
  unfold mapSet
  by_cases h : mapHas m k
  · simp only [h, if_true, mapGet, find?_setMap m k v h]
    rfl
  · have h' : mapHas m k = false := by simpa using h
    have hnone : m.find? (fun p => p.1 == k) = none := by
      have := mapGet_of_has_false h'
      unfold mapGet at this
      exact Option.map_eq_none.mp this
    unfold mapGet
    rw [h', if_neg (by simp), List.find?_append, hnone]
    simp [List.find?]

lemma mapGet_mapSet_ne (m : Registry) (k k' : String) (v : List Subscription)
    (h : k' ≠ k) : mapGet (mapSet m k v) k' = mapGet m k' := by
  unfold mapSet
  by_cases hk : mapHas m k
  · simp only [hk, if_true, mapGet, find?_setMap_ne m k k' v h]
  · have hk' : mapHas m k = false := by simpa using hk
    unfold mapGet
    rw [hk', if_neg (by simp), List.find?_append,
      List.find?_cons_of_neg _ (by simp [Ne.symm h]), List.find?_nil]
    cases m.find? (fun p => p.1 == k') <;> rfl

lemma mapGet_mapDelete_ne (m : Registry) (k k' : String) (h : k' ≠ k) :
    mapGet (mapDelete m k) k' = mapGet m k' := by
  unfold mapDelete mapGet
  induction m with
  | nil => rfl
  | cons p rest ih =>
    by_cases hp : p.1 = k
    · have hp1 : (p.1 != k) = false := by simp [hp]
      have hp2 : (p.1 == k') = false := beq_eq_false_iff_ne.mpr (hp ▸ Ne.symm h)
      rw [List.filter_cons_of_neg (by simp [hp1]),
        List.find?_cons_of_neg _ (by simp [hp2])]
      exact ih
    · have hp1 : (p.1 != k) = true := by simp [hp]
      by_cases hq : p.1 = k'
      · rw [List.filter_cons_of_pos (by simp [hp1]),
          List.find?_cons_of_pos _ (by simp [hq]),
          List.find?_cons_of_pos _ (by simp [hq])]
      · have hq' : (p.1 == k') = false := beq_eq_false_iff_ne.mpr hq
        rw [List.filter_cons_of_pos (by simp [hp1]),
          List.find?_cons_of_neg _ (by simp [hq']),
          List.find?_cons_of_neg _ (by simp [hq'])]
        exact ih

end MapLemmas

section RegistryLemmas

lemma getSubscriptions_unsubscribe_self (w : Bool) (st : WebPushState)
    (uid ep : String) :
    getSubscriptions (unsubscribeUser w st uid ep).2 uid =
      (getSubscriptions st uid).filter (fun s => s.endpoint != ep) := by
  unfold unsubscribeUser
  by_cases h : mapHas st.subscriptions uid
  · simp only [h, if_true]
    split
    · unfold getSubscriptions
      rw [save_subscriptions_eq]
      simp [mapGet_mapSet_self]
    · unfold getSubscriptions
      simp [mapGet_mapSet_self]
  · have h' : mapHas st.subscriptions uid = false := by simpa using h
    simp only [h', Bool.false_eq_true, if_false]
    unfold getSubscriptions
    rw [mapGet_of_has_false h']
    rfl

lemma getSubscriptions_unsubscribe_other (w : Bool) (st : WebPushState)
    (uid ep v : String) (hv : v ≠ uid) :
    getSubscriptions (unsubscribeUser w st uid ep).2 v = getSubscriptions st v := by
  unfold unsubscribeUser
  by_cases h : mapHas st.subscriptions uid
  · simp only [h, if_true]
    split
    · unfold getSubscriptions
      rw [save_subscriptions_eq]
      simp [mapGet_mapSet_ne _ _ _ _ hv]
    · unfold getSubscriptions
      simp [mapGet_mapSet_ne _ _ _ _ hv]
  · have h' : mapHas st.subscriptions uid = false := by simpa using h
    simp only [h', Bool.false_eq_true, if_false]

lemma sendLoop_counts (w : Bool) (uid : String) (d : Subscription → SendOutcome) :
    ∀ (pending : List Subscription) (acc : SendResults) (st : WebPushState),
      (sendLoop w uid d pending acc st).1.sent + (sendLoop w uid d pending acc st).1.failed
          = acc.sent + acc.failed + pending.length ∧
        (sendLoop w uid d pending acc st).1.attempts
          = acc.attempts ++ pending.map (fun s => s.endpoint) := by
  intro pending
  induction pending with
  | nil => intro acc st; simp [sendLoop]
  | cons sub rest ih =>
    intro acc st
    unfold sendLoop
    cases hds : d sub with
    | ok =>
      obtain ⟨h1, h2⟩ := ih { acc with sent := acc.sent + 1, attempts := acc.attempts ++ [sub.endpoint] } st
      refine ⟨?_, ?_⟩
      · rw [h1]
        simp
        omega
      · rw [h2]
        simp
    | fail msg code =>
      obtain ⟨h1, h2⟩ := ih { acc with failed := acc.failed + 1, errors := acc.errors ++ [(sub.endpoint, msg)], attempts := acc.attempts ++ [sub.endpoint] } (if code == some 410 then (unsubscribeUser w st uid sub.endpoint).2 else st)
      refine ⟨?_, ?_⟩
      · rw [h1]
        simp
        omega
      · rw [h2]
        simp

lemma sendLoop_subs_self (w : Bool) (uid : String) (d : Subscription → SendOutcome) :
    ∀ (pending : List Subscription) (acc : SendResults) (st : WebPushState),
      getSubscriptions (sendLoop w uid d pending acc st).2 uid =
        (getSubscriptions st uid).filter
          (fun x => !(pending.any (fun s => s.endpoint == x.endpoint && (d s).isGone))) := by
  intro pending
  induction pending with
  | nil =>
    intro acc st
    simp [sendLoop]
  | cons sub rest ih =>
    intro acc st
    unfold sendLoop
    cases hds : d sub with
    | ok =>
      rw [ih]
      have hfun : ∀ x : Subscription,
          (!(rest.any (fun s => s.endpoint == x.endpoint && (d s).isGone)))
            = (!((sub :: rest).any (fun s => s.endpoint == x.endpoint && (d s).isGone))) := by
        intro x
        simp [List.any_cons, hds, SendOutcome.isGone]
      exact List.filter_congr (fun x _ => hfun x)
    | fail msg code =>
      by_cases hc : code = some 410
      · subst hc
        have h410 : ((some 410 : Option Nat) == some 410) = true := by decide
        simp only [h410, if_true]
        rw [ih, getSubscriptions_unsubscribe_self, List.filter_filter]
        refine List.filter_congr (fun x _ => ?_)
        by_cases hx : sub.endpoint = x.endpoint
        · simp [List.any_cons, hds, SendOutcome.isGone, hx, bne]
        · simp [List.any_cons, hds, SendOutcome.isGone, hx, bne,
            beq_eq_false_iff_ne.mpr hx, beq_eq_false_iff_ne.mpr (Ne.symm hx)]
      · have hc' : (code == some 410) = false := beq_eq_false_iff_ne.mpr hc
        simp only [hc', Bool.false_eq_true, if_false]
        rw [ih]
        refine List.filter_congr (fun x _ => ?_)
        simp [List.any_cons, hds, SendOutcome.isGone, hc']

lemma sendLoop_subs_other (w : Bool) (uid : String) (d : Subscription → SendOutcome)
    (v : String) (hv : v ≠ uid) :
    ∀ (pending : List Subscription) (acc : SendResults) (st : WebPushState),
      getSubscriptions (sendLoop w uid d pending acc st).2 v = getSubscriptions st v := by
  intro pending
  induction pending with
  | nil =>
    intro acc st
    simp [sendLoop]
  | cons sub rest ih =>
    intro acc st
    unfold sendLoop
    cases hds : d sub with
    | ok => rw [ih]
    | fail msg code =>
      rw [ih]
      split
      · exact getSubscriptions_unsubscribe_other w st uid sub.endpoint v hv
      · rfl

lemma getSubscriptions_of_has_false {st : WebPushState} {uid : String}
    (h : mapHas st.subscriptions uid = false) : getSubscriptions st uid = [] := by
  unfold getSubscriptions
  rw [mapGet_of_has_false h]
  rfl

end RegistryLemmas

section Fixtures

/-- A concrete subscription used by the concrete instances below. -/
def subA : Subscription := ⟨"ep-a", "p1", "a1"⟩

/-- A second concrete subscription with a distinct endpoint. -/
def subB : Subscription := ⟨"ep-b", "p2", "a2"⟩

/-- A concrete web-push state: alice has two endpoints, bob has one. -/
def stAB : WebPushState := ⟨[("alice", [subA, subB]), ("bob", [subB])], none⟩

/-- A push client behaviour that rejects endpoint `ep-a` with status 410
and delivers everywhere else. -/
def goneA : Subscription → SendOutcome :=
  fun s => if s.endpoint == "ep-a" then .fail "gone" (some 410) else .ok

end Fixtures

/-- C1: for a user with K registered subscriptions, `sendNotification`
passes each subscription of the snapshot taken at the start of the call
to the push client exactly once (the `attempts` trace is exactly the
snapshot's endpoints, even when endpoints are pruned mid-call), the
counters satisfy `sent + failed = K`, and a user without a registry entry
gets `{sent: 0, failed: 0}` with no attempts. -/
theorem C1_dispatch_attempts_per_subscription (w : Bool) (st : WebPushState)
    (uid : String) (d : Subscription → SendOutcome) :
    ((sendNotification w st uid d).1.attempts
        = (getSubscriptions st uid).map (fun s => s.endpoint)) ∧
      ((sendNotification w st uid d).1.sent + (sendNotification w st uid d).1.failed
        = (getSubscriptions st uid).length) ∧
      (mapHas st.subscriptions uid = false →
        (sendNotification w st uid d).1 = ⟨0, 0, [], []⟩) := by
  unfold sendNotification
  by_cases h : mapHas st.subscriptions uid
  · simp only [h, if_true]
    obtain ⟨h1, h2⟩ := sendLoop_counts w uid d (getSubscriptions st uid) ⟨0, 0, [], []⟩ st
    refine ⟨by simpa using h2, by simpa using h1, fun hf => ?_⟩
    exact absurd hf (by simp [h])
  · have h' : mapHas st.subscriptions uid = false := by simpa using h
    rw [getSubscriptions_of_has_false h']
    refine ⟨?_, ?_, fun _ => ?_⟩ <;> simp [h']

/-- C1 witness: on the concrete two-endpoint state with `ep-a` failing
with 410, both endpoints of the snapshot are attempted and
`sent + failed = 2`; a user with no entry gets the zero result. -/
theorem C1_dispatch_attempts_witness :
    ((sendNotification true stAB "alice" goneA).1.attempts = ["ep-a", "ep-b"]) ∧
      ((sendNotification true stAB "alice" goneA).1.sent
        + (sendNotification true stAB "alice" goneA).1.failed = 2) ∧
      (sendNotification true stAB "carol" goneA).1 = ⟨0, 0, [], []⟩ :=
  ⟨by decide, by decide,
    (C1_dispatch_attempts_per_subscription true stAB "carol" goneA).2.2 (by decide)⟩

/-- C2: characterization of `isInQuietHours` over minutes-since-midnight:
on a window whose bounds convert to `startM`/`endM`, the predicate is
`startM ≤ T ≤ endM` when `startM ≤ endM` and `T ≥ startM ∨ T ≤ endM`
otherwise; a missing window or a missing bound yields `false`; and on the
concrete windows of the spec: 22:00-07:00 contains 23:30 but not 12:00, and
08:00-20:00 does not contain 21:00. -/
theorem C2_quiet_hours_characterization :
    (∀ T : Nat, isInQuietHours none T = false) ∧
      (∀ (T : Nat) (e : Option String), isInQuietHours (some ⟨none, e⟩) T = false) ∧
      (∀ (T : Nat) (s : Option String), isInQuietHours (some ⟨s, none⟩) T = false) ∧
      (∀ (T : Nat) (s e : String) (startM endM : Nat),
        timeToMinutes s = some startM → timeToMinutes e = some endM →
        isInQuietHours (some ⟨some s, some e⟩) T =
          if startM ≤ endM then decide (startM ≤ T ∧ T ≤ endM)
          else decide (T ≥ startM ∨ T ≤ endM)) ∧
      (isInQuietHours (some ⟨some "22:00", some "07:00"⟩) (23 * 60 + 30) = true) ∧
      (isInQuietHours (some ⟨some "22:00", some "07:00"⟩) (12 * 60) = false) ∧
      (isInQuietHours (some ⟨some "08:00", some "20:00"⟩) (21 * 60) = false) := by
  refine ⟨fun T => rfl, fun T e => rfl, fun T s => ?_, ?_, by decide, by decide, by decide⟩
  · cases s <;> rfl
  · intro T s e startM endM hs he
    have hsne : (s == "") = false := by
      by_cases hval : s = ""
      · subst hval
        rw [show timeToMinutes "" = none from rfl] at hs
        cases hs
      · exact beq_eq_false_iff_ne.mpr hval
    have hene : (e == "") = false := by
      by_cases hval : e = ""
      · subst hval
        rw [show timeToMinutes "" = none from rfl] at he
        cases he
      · exact beq_eq_false_iff_ne.mpr hval
    have hred : isInQuietHours (some ⟨some s, some e⟩) T
        = (if (s == "" || e == "") = true then false
          else if jsLe (timeToMinutes s) (timeToMinutes e) = true then
            jsLe (timeToMinutes s) (some T) && jsLe (some T) (timeToMinutes e)
          else jsGe (some T) (timeToMinutes s) || jsLe (some T) (timeToMinutes e)) := rfl
    rw [hred, hs, he]
    simp only [hsne, hene, Bool.or_self, Bool.false_eq_true, if_false, jsLe, jsGe]
    by_cases hle : startM ≤ endM
    · simp [hle, Bool.decide_and]
    · simp [hle, Bool.decide_or]

/-- C2 witness: the general characterization applied to the wrapping
window 22:00-07:00 at 23:30. -/
theorem C2_quiet_hours_witness :
    isInQuietHours (some ⟨some "22:00", some "07:00"⟩) 1410 =
      if 1320 ≤ 420 then decide (1320 ≤ 1410 ∧ 1410 ≤ 420)
      else decide (1410 ≥ 1320 ∨ 1410 ≤ 420) :=
  C2_quiet_hours_characterization.2.2.2.1 1410 "22:00" "07:00" 1320 420
    (by decide) (by decide)

/-- A user whose quiet-hours window is 22:00-07:00. -/
def quietUser : User := ⟨"u1", some ⟨some ⟨some "22:00", some "07:00"⟩⟩⟩

/-- A scheduler state in which `u1` has one push endpoint, the quiet-hours
window 22:00-07:00, and an empty audit log. -/
def stQuiet : SchedState := ⟨⟨[("u1", [subA])], none⟩, [quietUser], []⟩

/-- C3 counterexample: at 23:30, inside the 22:00-07:00 quiet-hours
window, `sendNotificationToUser` makes 0 delivery attempts but also writes
0 audit records — not the one skipped-due-to-quiet-hours record the claim
asserts (the source only emits a console message and returns). -/
theorem C3_quiet_hours_no_skip_record_counterexample :
    quietGateActive stQuiet.users "u1" 1410 = true ∧
      (sendNotificationToUser true true 1410 (fun _ => .ok) stQuiet "u1" "msg").2 = [] ∧
      (sendNotificationToUser true true 1410 (fun _ => .ok) stQuiet "u1" "msg").1.logs.length
        = 0 := by
  refine ⟨by decide, rfl, rfl⟩

/-- C3 amended: when the quiet-hours gate is active at dispatch time,
`sendNotificationToUser` makes 0 delivery attempts and writes nothing at
all — the state (registry, snapshot and audit log) is returned unchanged
and no skipped record is appended. -/
theorem C3_quiet_hours_skip_amended (w lOk : Bool) (T : Nat)
    (d : Subscription → SendOutcome) (st : SchedState) (uid payload : String)
    (h : quietGateActive st.users uid T = true) :
    sendNotificationToUser w lOk T d st uid payload = (st, []) := by
  unfold sendNotificationToUser
  simp [h]

/-- C3 witness: the amended statement at the concrete quiet-hours state. -/
theorem C3_quiet_hours_skip_amended_witness :
    sendNotificationToUser true true 1410 (fun _ => .ok) stQuiet "u1" "msg"
      = (stQuiet, []) :=
  C3_quiet_hours_skip_amended true true 1410 (fun _ => .ok) stQuiet "u1" "msg" (by decide)

/-- C7: `sendCalorieAchievement` first rounds the percentage (an explicit
nonzero `percentage` wins over the computed ratio) and then tiers the
title: rounded ≥ 100 gives "Goal Achieved", 75 ≤ rounded < 100 gives
"Almost There", 50 ≤ rounded < 75 gives "Halfway There", and anything
lower the generic progress title; concretely percentage 100 is "Goal
Achieved", 74.9 rounds to 75 and is "Almost There", 49 is generic. -/
theorem C7_calorie_tiering :
    (∀ (uid : String) (c g : ℚ) (p : Option ℚ) (r : ℤ), uid ≠ "" → c ≠ 0 → g ≠ 0 →
      jsRound (effectivePercentage c g p) = r →
      ((r ≥ 100 → sendCalorieAchievement uid c g p = .ok ("Goal Achieved! 🎯", r)) ∧
        (75 ≤ r ∧ r < 100 →
          sendCalorieAchievement uid c g p = .ok ("Almost There! ⚡", r)) ∧
        (50 ≤ r ∧ r < 75 →
          sendCalorieAchievement uid c g p = .ok ("Halfway There! 📊", r)) ∧
        (r < 50 → sendCalorieAchievement uid c g p = .ok ("Calorie Update 📈", r)))) ∧
      (sendCalorieAchievement "u1" 1500 2000 (some 100) = .ok ("Goal Achieved! 🎯", 100)) ∧
      (sendCalorieAchievement "u1" 1500 2000 (some (749 / 10))
        = .ok ("Almost There! ⚡", 75)) ∧
      (sendCalorieAchievement "u1" 1500 2000 (some 49) = .ok ("Calorie Update 📈", 49)) := by
  have main : ∀ (uid : String) (c g : ℚ) (p : Option ℚ) (r : ℤ), uid ≠ "" → c ≠ 0 → g ≠ 0 →
      jsRound (effectivePercentage c g p) = r →
      ((r ≥ 100 → sendCalorieAchievement uid c g p = .ok ("Goal Achieved! 🎯", r)) ∧
        (75 ≤ r ∧ r < 100 →
          sendCalorieAchievement uid c g p = .ok ("Almost There! ⚡", r)) ∧
        (50 ≤ r ∧ r < 75 →
          sendCalorieAchievement uid c g p = .ok ("Halfway There! 📊", r)) ∧
        (r < 50 → sendCalorieAchievement uid c g p = .ok ("Calorie Update 📈", r))) := by
    intro uid c g p r h1 h2 h3 hr
    have hguard : ¬(uid = "" ∨ c = 0 ∨ g = 0) := by tauto
    unfold sendCalorieAchievement
    rw [if_neg hguard, hr]
    dsimp only
    refine ⟨fun hc => ?_, fun hc => ?_, fun hc => ?_, fun hc => ?_⟩
    · rw [if_pos hc]
    · rw [if_neg (by omega), if_pos (by omega)]
    · rw [if_neg (by omega), if_neg (by omega), if_pos (by omega)]
    · rw [if_neg (by omega), if_neg (by omega), if_neg (by omega)]
  refine ⟨main, ?_, ?_, ?_⟩
  · exact (main "u1" 1500 2000 (some 100) 100 (by decide) (by norm_num) (by norm_num)
      (by norm_num [jsRound, effectivePercentage])).1 (by norm_num)
  · exact (main "u1" 1500 2000 (some (749 / 10)) 75 (by decide) (by norm_num) (by norm_num)
      (by norm_num [jsRound, effectivePercentage])).2.1 (by norm_num)
  · exact (main "u1" 1500 2000 (some 49) 49 (by decide) (by norm_num) (by norm_num)
      (by norm_num [jsRound, effectivePercentage])).2.2.2 (by norm_num)

/-- C7 witness: the computed-percentage path — 500 of 1000 calories is
50%, landing in the "Halfway There" tier. -/
theorem C7_calorie_tiering_witness :
    sendCalorieAchievement "u2" 500 1000 none = .ok ("Halfway There! 📊", 50) :=
  (C7_calorie_tiering.1 "u2" 500 1000 none 50 (by decide) (by norm_num) (by norm_num)
    (by norm_num [jsRound, effectivePercentage])).2.2.1 (by norm_num)

/-- C4: when a delivery attempt for endpoint `E` of user `uid` is
classified gone (status 410), `sendNotification` synchronously prunes it:
afterwards the subscription list of that user is exactly the snapshot filtered
of the gone-classified endpoints (so `E` is absent from `List(uid)` and
every endpoint whose attempt was not classified gone survives, in order),
and the subscription list of every other user is unchanged.  Requires the
registry invariant that the endpoints of the user are pairwise distinct. -/
theorem C4_prune_gone (w : Bool) (st : WebPushState) (uid E : String)
    (d : Subscription → SendOutcome)
    (hnodup : ((getSubscriptions st uid).map (fun s => s.endpoint)).Nodup)
    (hE : ∃ s ∈ getSubscriptions st uid, s.endpoint = E ∧ (d s).isGone = true) :
    (getSubscriptions (sendNotification w st uid d).2 uid
        = (getSubscriptions st uid).filter (fun s => !(d s).isGone)) ∧
      (E ∉ (getSubscriptions (sendNotification w st uid d).2 uid).map
        (fun s => s.endpoint)) ∧
      (∀ v, v ≠ uid → getSubscriptions (sendNotification w st uid d).2 v
        = getSubscriptions st v) := by
  unfold sendNotification
  by_cases h : mapHas st.subscriptions uid
  · simp only [h, if_true]
    have hinj := List.inj_on_of_nodup_map hnodup
    have hchar : getSubscriptions
        (sendLoop w uid d (getSubscriptions st uid) ⟨0, 0, [], []⟩ st).2 uid
        = (getSubscriptions st uid).filter (fun s => !(d s).isGone) := by
      rw [sendLoop_subs_self]
      refine List.filter_congr (fun x hx => ?_)
      congr 1
      cases hgx : (d x).isGone with
      | true =>
        exact List.any_eq_true.mpr ⟨x, hx, by simp [hgx]⟩
      | false =>
        refine List.any_eq_false.mpr (fun s hs => ?_)
        intro hcontra
        obtain ⟨hept, hgone⟩ : (s.endpoint == x.endpoint) = true ∧ (d s).isGone = true := by
          simpa using hcontra
        have hsx : s = x := hinj hs hx (by simpa using hept)
        rw [hsx, hgx] at hgone
        exact Bool.noConfusion hgone
    refine ⟨hchar, ?_, fun v hv => sendLoop_subs_other w uid d v hv _ _ _⟩
    intro hmem
    rw [hchar] at hmem
    obtain ⟨x, hxmem, hxE⟩ := List.mem_map.mp hmem
    obtain ⟨hxS, hxkeep⟩ := List.mem_filter.mp hxmem
    obtain ⟨s, hsS, hsE, hsgone⟩ := hE
    have hsx : s = x := hinj hsS hxS (by rw [hsE, hxE])
    rw [hsx] at hsgone
    rw [hsgone] at hxkeep
    exact Bool.noConfusion hxkeep
  · exfalso
    obtain ⟨s, hsS, -, -⟩ := hE
    rw [getSubscriptions_of_has_false (by simpa using h)] at hsS
    exact List.not_mem_nil s hsS

/-- C4 witness: pruning `ep-a` for alice on the concrete state removes it
from the alice list, keeps `ep-b`, and leaves bob untouched. -/
theorem C4_prune_gone_witness :
    getSubscriptions (sendNotification true stAB "alice" goneA).2 "alice" = [subB] ∧
      ("ep-a" ∉ (getSubscriptions (sendNotification true stAB "alice" goneA).2
        "alice").map (fun s => s.endpoint)) ∧
      getSubscriptions (sendNotification true stAB "alice" goneA).2 "bob" = [subB] := by
  obtain ⟨h1, h2, h3⟩ := C4_prune_gone true stAB "alice" "ep-a" goneA (by decide) (by decide)
  exact ⟨h1.trans (by decide), h2, (h3 "bob" (by decide)).trans (by decide)⟩

lemma subscribeUser_fresh (w : Bool) (st : WebPushState) (uid : String)
    (sub : Subscription)
    (hfresh : (getSubscriptions st uid).any (fun s => s.endpoint == sub.endpoint) = false) :
    (subscribeUser w st uid sub).1 = true ∧
      getSubscriptions (subscribeUser w st uid sub).2 uid
        = getSubscriptions st uid ++ [sub] ∧
      mapHas (subscribeUser w st uid sub).2.subscriptions uid = true := by
  have hfresh' : ((mapGet st.subscriptions uid).getD []).any
      (fun s => s.endpoint == sub.endpoint) = false := hfresh
  unfold subscribeUser
  by_cases h : mapHas st.subscriptions uid
  · rw [if_pos h]
    dsimp only
    simp only [hfresh', Bool.not_false, if_true]
    refine ⟨by simp, ?_, ?_⟩
    · unfold getSubscriptions
      rw [save_subscriptions_eq, mapGet_mapSet_self]
      rfl
    · unfold mapHas
      rw [save_subscriptions_eq, mapGet_mapSet_self]
      rfl
  · rw [if_neg h]
    dsimp only
    have hempty : (mapGet (mapSet st.subscriptions uid []) uid).getD []
        = ([] : List Subscription) := by
      rw [mapGet_mapSet_self]
      rfl
    simp only [hempty, List.any_nil, Bool.not_false, if_true]
    refine ⟨by simp, ?_, ?_⟩
    · unfold getSubscriptions
      rw [save_subscriptions_eq, mapGet_mapSet_self,
        mapGet_of_has_false (by simpa using h)]
      simp
    · unfold mapHas
      rw [save_subscriptions_eq, mapGet_mapSet_self]
      rfl

lemma subscribeUser_existing (w : Bool) (st : WebPushState) (uid : String)
    (sub : Subscription) (hhas : mapHas st.subscriptions uid = true)
    (hmem : (getSubscriptions st uid).any (fun s => s.endpoint == sub.endpoint) = true) :
    subscribeUser w st uid sub = (false, st) := by
  have hmem' : ((mapGet st.subscriptions uid).getD []).any
      (fun s => s.endpoint == sub.endpoint) = true := hmem
  unfold subscribeUser
  rw [if_pos hhas]
  dsimp only
  simp only [hmem', Bool.not_true, Bool.false_eq_true, if_false]

/-- C5: `subscribeUser` is idempotent — with an endpoint not yet
registered for the user, the first call returns `added = true`, the second
call with the same `{userId, endpoint}` returns `added = false` and leaves
the whole web-push state exactly as after the first call; the first call
appends the subscription (count grows by one), and endpoint uniqueness
within the set of the user is preserved. -/
theorem C5_subscribe_idempotent (w1 w2 : Bool) (st : WebPushState) (uid : String)
    (sub : Subscription)
    (hfresh : (getSubscriptions st uid).any (fun s => s.endpoint == sub.endpoint) = false) :
    (subscribeUser w1 st uid sub).1 = true ∧
      (subscribeUser w2 (subscribeUser w1 st uid sub).2 uid sub).1 = false ∧
      (subscribeUser w2 (subscribeUser w1 st uid sub).2 uid sub).2
        = (subscribeUser w1 st uid sub).2 ∧
      getSubscriptions (subscribeUser w1 st uid sub).2 uid
        = getSubscriptions st uid ++ [sub] ∧
      (((getSubscriptions st uid).map (fun s => s.endpoint)).Nodup →
        ((getSubscriptions (subscribeUser w1 st uid sub).2 uid).map
          (fun s => s.endpoint)).Nodup) := by
  obtain ⟨hb, hsubs, hhas⟩ := subscribeUser_fresh w1 st uid sub hfresh
  have hmem : (getSubscriptions (subscribeUser w1 st uid sub).2 uid).any
      (fun s => s.endpoint == sub.endpoint) = true := by
    rw [hsubs]
    simp
  have hsecond := subscribeUser_existing w2 _ uid sub hhas hmem
  have hnotmem : sub.endpoint ∉ (getSubscriptions st uid).map (fun s => s.endpoint) := by
    intro hmm
    obtain ⟨x, hx, hxe⟩ := List.mem_map.mp hmm
    have := List.any_eq_false.mp hfresh x hx
    rw [hxe] at this
    exact this (by simp)
  refine ⟨hb, by rw [hsecond], by rw [hsecond], hsubs, fun hnd => ?_⟩
  rw [hsubs, List.map_append]
  simp [List.nodup_append, hnd, hnotmem]

/-- C5 witness: subscribing the first endpoint of carol twice on the empty
state — `true` then `false`, with a single copy of the subscription. -/
theorem C5_subscribe_idempotent_witness :
    (subscribeUser true ⟨[], none⟩ "carol" subA).1 = true ∧
      (subscribeUser true (subscribeUser true ⟨[], none⟩ "carol" subA).2 "carol" subA).1
        = false ∧
      getSubscriptions
        (subscribeUser true (subscribeUser true ⟨[], none⟩ "carol" subA).2
          "carol" subA).2 "carol" = [subA] := by
  obtain ⟨h1, h2, h3, h4, -⟩ :=
    C5_subscribe_idempotent true true ⟨[], none⟩ "carol" subA (by decide)
  refine ⟨h1, h2, ?_⟩
  rw [h3, h4]
  decide

lemma bulkLoop_spec {σ : Type} (dispatch : String → σ → Except String σ) :
    ∀ (uids : List String) (acc : BulkResults) (st : σ),
      ((bulkLoop dispatch uids acc st).1.total = acc.total) ∧
        ((bulkLoop dispatch uids acc st).1.sent + (bulkLoop dispatch uids acc st).1.failed
          = acc.sent + acc.failed + uids.length) ∧
        ((bulkLoop dispatch uids acc st).1.errors.length + acc.failed
          = acc.errors.length + (bulkLoop dispatch uids acc st).1.failed) ∧
        (∀ e ∈ (bulkLoop dispatch uids acc st).1.errors, e ∈ acc.errors ∨ e.1 ∈ uids) := by
  intro uids
  induction uids with
  | nil =>
    intro acc st
    exact ⟨rfl, by simp [bulkLoop], by simp [bulkLoop], fun e he => Or.inl (by simpa [bulkLoop] using he)⟩
  | cons uid rest ih =>
    intro acc st
    unfold bulkLoop
    cases hd : dispatch uid st with
    | ok st1 =>
      dsimp only
      obtain ⟨h1, h2, h3, h4⟩ := ih { acc with sent := acc.sent + 1 } st1
      refine ⟨h1, ?_, ?_, fun e he => ?_⟩
      · rw [h2]
        simp
        omega
      · rw [h3]
      · rcases h4 e he with hacc | hrest
        · exact Or.inl hacc
        · exact Or.inr (List.mem_cons_of_mem _ hrest)
    | error msg =>
      dsimp only
      obtain ⟨h1, h2, h3, h4⟩ := ih { acc with failed := acc.failed + 1, errors := acc.errors ++ [(uid, msg)] } st
      refine ⟨h1, ?_, ?_, fun e he => ?_⟩
      · rw [h2]
        simp
        omega
      · have := h3
        simp only [List.length_append, List.length_cons, List.length_nil] at this
        omega
      · rcases h4 e he with hacc | hrest
        · rcases List.mem_append.mp hacc with hold | hnew
          · exact Or.inl hold
          · refine Or.inr ?_
            have : e = (uid, msg) := by simpa using hnew
            rw [this]
            exact List.mem_cons_self uid rest
        · exact Or.inr (List.mem_cons_of_mem _ hrest)

/-- A dispatch behaviour for the concrete bulk example: the dispatch for
user2 throws, the dispatch for every other user succeeds (bumping a
counter state). -/
def exDispatch (uid : String) (n : Nat) : Except String Nat :=
  if uid == "user2" then .error "boom" else .ok (n + 1)

/-- C6: `sendBulkNotification` isolates per-user failures — for any
dispatch behaviour and any user list, `total` is the number of users,
every user contributes to exactly one of `sent`/`failed`, `errors` has
one entry per failure and mentions only listed users; concretely, with
three users where the dispatch for user2 throws, users 1 and 3 are still
counted as sent, user2 is listed in `errors`, and `total = 3`. -/
theorem C6_bulk_isolation :
    (∀ (σ : Type) (dispatch : String → σ → Except String σ)
      (userIds : List String) (st : σ),
      ((sendBulkNotification dispatch userIds st).1.total = userIds.length) ∧
        ((sendBulkNotification dispatch userIds st).1.sent
            + (sendBulkNotification dispatch userIds st).1.failed
          = userIds.length) ∧
        ((sendBulkNotification dispatch userIds st).1.errors.length
          = (sendBulkNotification dispatch userIds st).1.failed) ∧
        (∀ e ∈ (sendBulkNotification dispatch userIds st).1.errors, e.1 ∈ userIds)) ∧
      (sendBulkNotification exDispatch ["user1", "user2", "user3"] 0
        = (⟨3, 2, 1, [("user2", "boom")]⟩, 2)) := by
  refine ⟨fun σ dispatch userIds st => ?_, by decide⟩
  obtain ⟨h1, h2, h3, h4⟩ := bulkLoop_spec dispatch userIds ⟨userIds.length, 0, 0, []⟩ st
  refine ⟨h1, by simpa using h2, by simpa using h3, fun e he => ?_⟩
  rcases h4 e he with hacc | hmem
  · exact absurd hacc (List.not_mem_nil e)
  · exact hmem

/-- C6 witness: the universal part applied to the concrete three-user
run with user2 failing. -/
theorem C6_bulk_isolation_witness :
    (sendBulkNotification exDispatch ["user1", "user2", "user3"] 0).1.total = 3 ∧
      (sendBulkNotification exDispatch ["user1", "user2", "user3"] 0).1.sent
          + (sendBulkNotification exDispatch ["user1", "user2", "user3"] 0).1.failed
        = 3 ∧
      (∀ e ∈ (sendBulkNotification exDispatch ["user1", "user2", "user3"] 0).1.errors,
        e.1 ∈ ["user1", "user2", "user3"]) := by
  obtain ⟨h1, h2, -, h4⟩ :=
    C6_bulk_isolation.1 Nat exDispatch ["user1", "user2", "user3"] 0
  exact ⟨h1, h2, h4⟩

lemma decodeSub_encodeSub (s : Subscription) : decodeSub (encodeSub s) = some s := rfl

lemma mapM_decodeSub_map_encodeSub (l : List Subscription) :
    (l.map encodeSub).mapM decodeSub = some l := by
  induction l with
  | nil => rfl
  | cons s rest ih =>
    rw [List.map_cons, List.mapM_cons, decodeSub_encodeSub, ih]
    rfl

lemma mapM_decodeRegistry_fields (m : Registry) :
    (m.map (fun p => (p.1, Json.arr (p.2.map encodeSub)))).mapM
      (fun p => (decodeSubList p.2).map (fun subs => (p.1, subs))) = some m := by
  induction m with
  | nil => rfl
  | cons p rest ih =>
    rw [List.map_cons, List.mapM_cons]
    dsimp only
    rw [show decodeSubList (Json.arr (p.2.map encodeSub))
        = (p.2.map encodeSub).mapM decodeSub from rfl]
    rw [mapM_decodeSub_map_encodeSub, ih]
    rfl

lemma decodeRegistry_encodeRegistry (m : Registry) :
    decodeRegistry (encodeRegistry m) = some m := by
  have hred : decodeRegistry (encodeRegistry m)
      = (m.map (fun p => (p.1, Json.arr (p.2.map encodeSub)))).mapM
          (fun p => (decodeSubList p.2).map (fun subs => (p.1, subs))) := rfl
  rw [hred, mapM_decodeRegistry_fields]

/-- C9: the snapshot round-trips losslessly — after a successful
`saveSubscriptions`, `loadSubscriptions` of the written snapshot restores
the registry exactly (same `userId` keys, same subscription lists,
field-for-field and in order), so `List(userId)` after the simulated
restart equals `List(userId)` before it. -/
theorem C9_snapshot_roundtrip (st : WebPushState) (uid : String) :
    loadSubscriptions (saveSubscriptions true st).disk = st.subscriptions ∧
      getSubscriptions ⟨loadSubscriptions (saveSubscriptions true st).disk,
        (saveSubscriptions true st).disk⟩ uid = getSubscriptions st uid := by
  have hload : loadSubscriptions (saveSubscriptions true st).disk = st.subscriptions := by
    unfold saveSubscriptions loadSubscriptions
    simp [decodeRegistry_encodeRegistry]
  refine ⟨hload, ?_⟩
  unfold getSubscriptions
  dsimp only
  rw [hload]

/-- C10: `sendCustomNotification` always reports
success with the fixed message — for every state, user,
payload, clock time, push-client behaviour, and regardless of whether the
snapshot write or the audit-log write fails — because
`sendNotificationToUser` catches everything internally and never throws,
leaving the `{success: false}` branch unreachable. -/
theorem C10_custom_notification_always_success (w lOk : Bool) (T : Nat)
    (d : Subscription → SendOutcome) (st : SchedState) (uid payload : String) :
    (sendCustomNotification w lOk T d st uid payload).1
      = ⟨true, "Notification sent"⟩ := rfl

lemma subscribeUser_writeOk_inv (st : WebPushState) (uid : String) (sub : Subscription) :
    (subscribeUser true st uid sub).1 = (subscribeUser false st uid sub).1 ∧
      (subscribeUser true st uid sub).2.subscriptions
        = (subscribeUser false st uid sub).2.subscriptions := by
  unfold subscribeUser
  dsimp only
  split <;> split <;>
    first
      | exact ⟨rfl, by rw [save_subscriptions_eq, save_subscriptions_eq]⟩
      | exact ⟨rfl, rfl⟩

lemma unsubscribeUser_writeOk_inv (st : WebPushState) (uid ep : String) :
    (unsubscribeUser true st uid ep).1 = (unsubscribeUser false st uid ep).1 ∧
      (unsubscribeUser true st uid ep).2.subscriptions
        = (unsubscribeUser false st uid ep).2.subscriptions := by
  unfold unsubscribeUser
  split
  · dsimp only
    split
    · exact ⟨rfl, by rw [save_subscriptions_eq, save_subscriptions_eq]⟩
    · exact ⟨rfl, rfl⟩
  · exact ⟨rfl, rfl⟩

lemma unsubscribeAll_writeOk_inv (st : WebPushState) (uid : String) :
    (unsubscribeAll true st uid).1 = (unsubscribeAll false st uid).1 ∧
      (unsubscribeAll true st uid).2.subscriptions
        = (unsubscribeAll false st uid).2.subscriptions := by
  unfold unsubscribeAll
  split
  · exact ⟨rfl, by rw [save_subscriptions_eq, save_subscriptions_eq]⟩
  · exact ⟨rfl, rfl⟩

lemma subscribeUser_fst (w : Bool) (st : WebPushState) (uid : String) (sub : Subscription) :
    (subscribeUser w st uid sub).1
      = !((getSubscriptions st uid).any (fun s => s.endpoint == sub.endpoint)) := by
  unfold subscribeUser getSubscriptions
  by_cases h : mapHas st.subscriptions uid
  · rw [if_pos h]
    dsimp only
    cases halready : ((mapGet st.subscriptions uid).getD []).any
        (fun s => s.endpoint == sub.endpoint) with
    | true => simp [halready]
    | false => simp [halready]
  · rw [if_neg h]
    dsimp only
    have hempty : (mapGet (mapSet st.subscriptions uid []) uid).getD []
        = ([] : List Subscription) := by
      rw [mapGet_mapSet_self]
      rfl
    have hnone : mapGet st.subscriptions uid = none :=
      mapGet_of_has_false (by simpa using h)
    rw [hnone]
    simp [hempty]

lemma unsubscribeUser_fst (w : Bool) (st : WebPushState) (uid ep : String) :
    (unsubscribeUser w st uid ep).1
      = (getSubscriptions st uid).any (fun s => s.endpoint == ep) := by
  unfold unsubscribeUser getSubscriptions
  by_cases h : mapHas st.subscriptions uid
  · rw [if_pos h]
    dsimp only
    by_cases hlt : (((mapGet st.subscriptions uid).getD []).filter
        (fun s => s.endpoint != ep)).length < ((mapGet st.subscriptions uid).getD []).length
    · rw [if_pos hlt]
      obtain ⟨x, hx, hnx⟩ := List.length_filter_lt_length_iff_exists.mp hlt
      have hxe : (x.endpoint == ep) = true := by
        rcases hb : x.endpoint == ep with _ | _
        · exact absurd (by simp [bne, hb]) hnx
        · rfl
      exact (List.any_eq_true.mpr ⟨x, hx, hxe⟩).symm
    · rw [if_neg hlt]
      symm
      refine List.any_eq_false.mpr (fun x hx => ?_)
      intro hxe
      exact hlt (List.length_filter_lt_length_iff_exists.mpr
        ⟨x, hx, by simp [bne, hxe]⟩)
  · rw [if_neg h, mapGet_of_has_false (by simpa using h)]
    rfl

lemma unsubscribeAll_fst (w : Bool) (st : WebPushState) (uid : String) :
    (unsubscribeAll w st uid).1 = mapHas st.subscriptions uid := by
  unfold unsubscribeAll
  by_cases h : mapHas st.subscriptions uid
  · rw [if_pos h, h]
  · rw [if_neg h]
    simpa using h

/-- C8: a snapshot-write failure is swallowed — for subscribe,
unsubscribe and unsubscribe-all, the returned boolean and the resulting
in-memory registry are identical whether the `saveSubscriptions` write
succeeds or fails, and each returned boolean is determined by the
in-memory mutation alone: subscribe succeeds iff the endpoint was not yet
registered, unsubscribe succeeds iff it was, unsubscribe-all succeeds iff
the user had an entry. -/
theorem C8_persistence_failure_swallowed (w : Bool) (st : WebPushState)
    (uid ep : String) (sub : Subscription) :
    ((subscribeUser true st uid sub).1 = (subscribeUser false st uid sub).1) ∧
      ((subscribeUser true st uid sub).2.subscriptions
        = (subscribeUser false st uid sub).2.subscriptions) ∧
      ((unsubscribeUser true st uid ep).1 = (unsubscribeUser false st uid ep).1) ∧
      ((unsubscribeUser true st uid ep).2.subscriptions
        = (unsubscribeUser false st uid ep).2.subscriptions) ∧
      ((unsubscribeAll true st uid).1 = (unsubscribeAll false st uid).1) ∧
      ((unsubscribeAll true st uid).2.subscriptions
        = (unsubscribeAll false st uid).2.subscriptions) ∧
      ((subscribeUser w st uid sub).1
        = !((getSubscriptions st uid).any (fun s => s.endpoint == sub.endpoint))) ∧
      ((unsubscribeUser w st uid ep).1
        = (getSubscriptions st uid).any (fun s => s.endpoint == ep)) ∧
      ((unsubscribeAll w st uid).1 = mapHas st.subscriptions uid) := by
  obtain ⟨hs1, hs2⟩ := subscribeUser_writeOk_inv st uid sub
  obtain ⟨hu1, hu2⟩ := unsubscribeUser_writeOk_inv st uid ep
  obtain ⟨ha1, ha2⟩ := unsubscribeAll_writeOk_inv st uid
  exact ⟨hs1, hs2, hu1, hu2, ha1, ha2, subscribeUser_fst w st uid sub,
    unsubscribeUser_fst w st uid ep, unsubscribeAll_fst w st uid⟩

end NutritionBackend
